import Mathlib

/-!
Shallow embedding of the `libc-detector` crate (`src/lib.rs`): a version
parser, a glibc probe orchestrator, a musl loader probe and the composing
`libc_version`.  All I/O boundaries (temp files, process spawning, the
filesystem) are modelled as explicit environment outcomes; the pure control
flow and text processing are translated from the source.
-/

namespace LibcDetector

/-- Rust `char::is_whitespace` (the Unicode White_Space set), used by
`str::trim`. -/
def rustIsWhitespace (c : Char) : Bool :=
  let n := c.toNat
  (0x09 ≤ n && n ≤ 0x0D) || n == 0x20 || n == 0x85 || n == 0xA0 ||
  n == 0x1680 || (0x2000 ≤ n && n ≤ 0x200A) || n == 0x2028 || n == 0x2029 ||
  n == 0x202F || n == 0x205F || n == 0x3000

/-- Rust `str::trim`: drop whitespace from both ends. -/
def rustTrim (cs : List Char) : List Char :=
  ((cs.dropWhile rustIsWhitespace).reverse.dropWhile rustIsWhitespace).reverse

/-- Helper for `splitDot`: accumulate the current segment (reversed). -/
def splitDotGo (acc : List Char) : List Char → List (List Char)
  | [] => [acc.reverse]
  | c :: rest =>
    if c = '.' then acc.reverse :: splitDotGo [] rest
    else splitDotGo (c :: acc) rest

/-- Rust `str::split('.')` as a list of segments (always nonempty; empty
segments are kept, matching Rust). -/
def splitDot (cs : List Char) : List (List Char) :=
  splitDotGo [] cs

/-- ASCII digit test, as used by Rust integer parsing. -/
def isAsciiDigit (c : Char) : Bool :=
  '0' ≤ c && c ≤ '9'

/-- Numeric value of a digit string (most significant digit first). -/
def digitsVal (cs : List Char) : Nat :=
  cs.foldl (fun acc c => acc * 10 + (c.toNat - 48)) 0

/-- Largest value representable in Rust's `u32`. -/
def u32Max : Nat := 4294967295

/-- Rust `str::parse::<u32>()`: an optional leading `+`, then one or more
ASCII digits, and the value must fit in 32 bits; anything else is `Err`
(modelled as `none`). -/
def rustParseU32Chars (cs : List Char) : Option Nat :=
  let ds := if cs.head? = some '+' then cs.tail else cs
  if ds = [] then none
  else if ds.all isAsciiDigit then
    if digitsVal ds ≤ u32Max then some (digitsVal ds) else none
  else none

/-- `parse_major_minor_version` from `src/lib.rs`, on character lists: trim,
split on `.`, take the next segment and parse it as `u32`, twice, short
circuiting on any failure (the `?` chain in the source). -/
def parseMMChars (cs : List Char) : Option (Nat × Nat) :=
  match splitDot (rustTrim cs) with
  | [] => none
  | m :: rest =>
    match rustParseU32Chars m with
    | none => none
    | some major =>
      match rest with
      | [] => none
      | n :: _ =>
        match rustParseU32Chars n with
        | none => none
        | some minor => some (major, minor)

/-- `parse_major_minor_version` on Lean strings. -/
def parse_major_minor_version (s : String) : Option (Nat × Nat) :=
  parseMMChars s.data

/-- The Unicode replacement character emitted by lossy UTF-8 decoding. -/
def uRepl : Char := Char.ofNat 0xFFFD

/-- UTF-8 continuation byte test. -/
def isCont (b : Nat) : Bool :=
  0x80 ≤ b && b ≤ 0xBF

/-- Valid second byte for a three-byte UTF-8 sequence with leading byte
`b1` (Rust `core::str` validation table). -/
def utf8Second3 (b1 b2 : Nat) : Bool :=
  if b1 == 0xE0 then 0xA0 ≤ b2 && b2 ≤ 0xBF
  else if b1 == 0xED then 0x80 ≤ b2 && b2 ≤ 0x9F
  else isCont b2

/-- Valid second byte for a four-byte UTF-8 sequence with leading byte
`b1`. -/
def utf8Second4 (b1 b2 : Nat) : Bool :=
  if b1 == 0xF0 then 0x90 ≤ b2 && b2 ≤ 0xBF
  else if b1 == 0xF4 then 0x80 ≤ b2 && b2 ≤ 0x8F
  else isCont b2

/-- Rust `String::from_utf8_lossy`: decode UTF-8, replacing each maximal
invalid subpart by U+FFFD (error lengths follow Rust's
`run_utf8_validation`; a truncated sequence at end of input yields a single
replacement character). -/
def utf8DecodeLossy : List Nat → List Char
  | [] => []
  | b :: rest =>
    if b ≤ 0x7F then Char.ofNat b :: utf8DecodeLossy rest
    else if b < 0xC2 then uRepl :: utf8DecodeLossy rest
    else if b ≤ 0xDF then
      match rest with
      | [] => [uRepl]
      | b2 :: rest2 =>
        if isCont b2 then
          Char.ofNat ((b - 0xC0) * 0x40 + (b2 - 0x80)) :: utf8DecodeLossy rest2
        else uRepl :: utf8DecodeLossy (b2 :: rest2)
    else if b ≤ 0xEF then
      match rest with
      | [] => [uRepl]
      | b2 :: rest2 =>
        if utf8Second3 b b2 then
          match rest2 with
          | [] => [uRepl]
          | b3 :: rest3 =>
            if isCont b3 then
              Char.ofNat ((b - 0xE0) * 0x1000 + (b2 - 0x80) * 0x40 + (b3 - 0x80)) ::
                utf8DecodeLossy rest3
            else uRepl :: utf8DecodeLossy (b3 :: rest3)
        else uRepl :: utf8DecodeLossy (b2 :: rest2)
    else if b ≤ 0xF4 then
      match rest with
      | [] => [uRepl]
      | b2 :: rest2 =>
        if utf8Second4 b b2 then
          match rest2 with
          | [] => [uRepl]
          | b3 :: rest3 =>
            if isCont b3 then
              match rest3 with
              | [] => [uRepl]
              | b4 :: rest4 =>
                if isCont b4 then
                  Char.ofNat ((b - 0xF0) * 0x40000 + (b2 - 0x80) * 0x1000 +
                    (b3 - 0x80) * 0x40 + (b4 - 0x80)) :: utf8DecodeLossy rest4
                else uRepl :: utf8DecodeLossy (b4 :: rest4)
            else uRepl :: utf8DecodeLossy (b3 :: rest3)
        else uRepl :: utf8DecodeLossy (b2 :: rest2)
    else uRepl :: utf8DecodeLossy rest

/-- UTF-8 bytes of an ASCII string, for building concrete probe outputs. -/
def bytesOf (s : String) : List Nat :=
  s.data.map Char.toNat

/-- Strip one trailing carriage return, as Rust `str::lines` does on a line
terminated by a line feed. -/
def stripTrailCR (l : List Char) : List Char :=
  if l.getLast? = some '\x0D' then l.dropLast else l

/-- Helper for `rustLines`: accumulate the current line (reversed). -/
def rustLinesGo (acc : List Char) : List Char → List (List Char)
  | [] => if acc.isEmpty then [] else [acc.reverse]
  | c :: rest =>
    if c = '\n' then stripTrailCR acc.reverse :: rustLinesGo [] rest
    else rustLinesGo (c :: acc) rest

/-- Rust `str::lines`: split at `\n` (also consuming a `\r` directly before
it); a trailing line terminator does not produce a final empty line. -/
def rustLines (cs : List Char) : List (List Char) :=
  rustLinesGo [] cs

/-- The per-line matcher used in `musl_libc_version`: returns the remainder
of the line after the literal tag `"Version "`, when the line carries it. -/
def stripVersionTag (l : List Char) : Option (List Char) :=
  if l.take 8 = "Version ".data then some (l.drop 8) else none

/-- The version extraction applied to the musl loader's standard error in
`musl_libc_version`: lossy-decode the bytes, find the first line carrying the
`"Version "` tag, strip the tag and parse major.minor. -/
def muslExtract (errBytes : List Nat) : Option (Nat × Nat) :=
  ((rustLines (utf8DecodeLossy errBytes)).findSome? stripVersionTag).bind parseMMChars

/-- The file-descriptor token of the writable temporary file (`f` in the
source). -/
def wFd : Nat := 3

/-- The file-descriptor token of the read-only reopen (`read_only_f`). -/
def rFd : Nat := 4

/-- Observable resource events of one glibc probe attempt. -/
inductive Ev where
  | openRW : Nat → Ev
  | writeAll : Nat → Ev
  | setPerm : Nat → Ev
  | openRO : Nat → Ev
  | close : Nat → Ev
  | exec : Nat → Ev
  deriving DecidableEq

/-- Environment outcome of one glibc probe attempt, covering every fallible
step of the loop body of `glibc_version`. -/
inductive GlibcOutcome where
  /-- `tempfile::tempfile()` failed. -/
  | noTemp : GlibcOutcome
  /-- `f.write_all(detector)` failed. -/
  | writeFail : GlibcOutcome
  /-- `f.set_permissions(0o700)` failed. -/
  | permFail : GlibcOutcome
  /-- reopening through `/proc/self/fd` failed. -/
  | reopenFail : GlibcOutcome
  /-- `Command::output()` failed with `ErrorKind::NotFound`. -/
  | spawnNotFound : GlibcOutcome
  /-- `Command::output()` failed with any other error. -/
  | spawnOther : GlibcOutcome
  /-- the child ran; `code` is `status.code()`, `out` the raw stdout bytes. -/
  | exited : Option Int → List Nat → GlibcOutcome

/-- Events up to and including the `exec` of the read-only descriptor: create
the temp file, write the payload, set permissions, reopen read-only, drop the
writable handle (`drop(f)` in the source), execute. -/
def glibcPreTrace : List Ev :=
  [.openRW wFd, .writeAll wFd, .setPerm wFd, .openRO rFd, .close wFd, .exec rFd]

/-- One iteration of the `glibc_version` loop body: the emitted resource
events (Rust RAII drops included) and the value of the attempt — `some v`
exactly when the probe exits with status 0 and its lossy-decoded stdout
parses. -/
def glibcAttemptT : GlibcOutcome → List Ev × Option (Nat × Nat)
  | .noTemp => ([], none)
  | .writeFail => ([.openRW wFd, .close wFd], none)
  | .permFail => ([.openRW wFd, .writeAll wFd, .close wFd], none)
  | .reopenFail => ([.openRW wFd, .writeAll wFd, .setPerm wFd, .close wFd], none)
  | .spawnNotFound => (glibcPreTrace ++ [.close rFd], none)
  | .spawnOther => (glibcPreTrace ++ [.close rFd], none)
  | .exited code out =>
    (glibcPreTrace ++ [.close rFd],
      if code = some 0 then parseMMChars (utf8DecodeLossy out) else none)

/-- The value of one glibc probe attempt. -/
def glibcAttempt (o : GlibcOutcome) : Option (Nat × Nat) :=
  (glibcAttemptT o).2

/-- Rust `cfg!(target_arch = ...)` families relevant to the registry. -/
inductive TargetArch where
  | x86_64 : TargetArch
  | x86 : TargetArch
  | arm : TargetArch
  | aarch64 : TargetArch
  | powerpc64 : TargetArch
  | s390x : TargetArch
  | other : TargetArch
  deriving DecidableEq

/-- `glibc_detectors()`: the ordered registry of embedded detector binaries,
selected by the compiled target architecture.  The embedded payload bytes
(`include_bytes!`) are external build products, supplied as `payload`. -/
def glibc_detectors (payload : String → List Nat) (arch : TargetArch) :
    List (String × List Nat) :=
  let detectors : List (String × List Nat) := []
  let detectors :=
    if arch = .x86_64 ∨ arch = .x86 then
      detectors ++ [("x86_64", payload "x86_64"), ("i686", payload "i686")]
    else detectors
  let detectors :=
    if arch = .arm ∨ arch = .aarch64 then
      detectors ++ [("aarch64", payload "aarch64"), ("armv7l", payload "armv7l")]
    else detectors
  let detectors :=
    if arch = .powerpc64 then detectors ++ [("ppc64le", payload "ppc64le")]
    else detectors
  let detectors :=
    if arch = .s390x then detectors ++ [("s390x", payload "s390x")]
    else detectors
  detectors

/-- The `glibc_version` loop over a detector list: first attempt returning a
version wins; exhaustion gives `none`.  The environment is keyed by the
architecture tag of the attempted detector. -/
def glibcRun (env : String → GlibcOutcome) (ds : List (String × List Nat)) :
    Option (Nat × Nat) :=
  ds.findSome? fun d => glibcAttempt (env d.1)

/-- `glibc_version()` from `src/lib.rs`. -/
def glibc_version (arch : TargetArch) (payload : String → List Nat)
    (env : String → GlibcOutcome) : Option (Nat × Nat) :=
  glibcRun env (glibc_detectors payload arch)

/-- Environment outcome of one musl loader probe. -/
inductive MuslOutcome where
  /-- `loader.exists()` returned false. -/
  | absent : MuslOutcome
  /-- `Command::output()` failed. -/
  | spawnFail : MuslOutcome
  /-- the loader ran: exit code, stdout bytes, stderr bytes. -/
  | ran : Option Int → List Nat → List Nat → MuslOutcome

/-- One iteration of the `musl_libc_version` loop body: absent loader and
spawn failure are skips; when the loader ran, the version comes from
standard error alone (the exit status and stdout are never consulted). -/
def muslAttempt : MuslOutcome → Option (Nat × Nat)
  | .absent => none
  | .spawnFail => none
  | .ran _ _ err => muslExtract err

/-- The fixed architecture tags probed by `musl_libc_version`, in order. -/
def muslArches : List String :=
  ["x86_64", "aarch64", "i386", "armhf", "powerpc64le", "s390x"]

/-- The conventional musl loader path for an architecture tag. -/
def muslLoaderPath (arch : String) : String :=
  "/lib/ld-musl-" ++ arch ++ ".so.1"

/-- The `musl_libc_version` loop over a tag list; the filesystem/exec
environment is keyed by the probed loader path. -/
def muslRun (env : String → MuslOutcome) (arches : List String) :
    Option (Nat × Nat) :=
  arches.findSome? fun a => muslAttempt (env (muslLoaderPath a))

/-- `musl_libc_version()` from `src/lib.rs`. -/
def musl_libc_version (env : String → MuslOutcome) : Option (Nat × Nat) :=
  muslRun env muslArches

/-- The family of libc implementation. -/
inductive LibCFamily where
  | GLibC : LibCFamily
  | Musl : LibCFamily
  deriving DecidableEq

/-- A detected libc version. -/
structure LibCVersion where
  family : LibCFamily
  version : Nat × Nat
  deriving DecidableEq

/-- `libc_version()` from `src/lib.rs`: glibc first, then musl, else none. -/
def libc_version (arch : TargetArch) (payload : String → List Nat)
    (genv : String → GlibcOutcome) (menv : String → MuslOutcome) :
    Option LibCVersion :=
  match glibc_version arch payload genv with
  | some version => some ⟨.GLibC, version⟩
  | none =>
    match musl_libc_version menv with
    | some version => some ⟨.Musl, version⟩
    | none => none

/-- Does every `openRO` event come with the close of the writable handle as
the very next event? -/
def roThenCloseW : List Ev → Bool
  | [] => true
  | .openRO _ :: .close f :: rest => (f == wFd) && roThenCloseW rest
  | .openRO _ :: _ => false
  | _ :: rest => roThenCloseW rest

/-- Does every `exec` event target the read-only descriptor, and occur only
after the writable handle has been closed?  `closedW` records whether the
writable handle is already closed. -/
def execAfterCloseW (closedW : Bool) : List Ev → Bool
  | [] => true
  | .close f :: rest => execAfterCloseW (closedW || (f == wFd)) rest
  | .exec f :: rest => (f == rFd) && closedW && execAfterCloseW closedW rest
  | _ :: rest => execAfterCloseW closedW rest

/-- Is every descriptor opened in the trace closed later in the trace? -/
def releasesAll : List Ev → Bool
  | [] => true
  | .openRW f :: rest => decide (Ev.close f ∈ rest) && releasesAll rest
  | .openRO f :: rest => decide (Ev.close f ∈ rest) && releasesAll rest
  | _ :: rest => releasesAll rest

/-- Modelled from the spec: the two secure execution strategies of §4.2.
The anonymous-memory variant of the engine is not present under `src/` (the
shipped `glibc_version` uses the write-open-unlink strategy throughout), so
the strategy choice is modelled from the spec's words. -/
inductive ExecStrategy where
  | anonymousMemory : ExecStrategy
  | writeOpenUnlink : ExecStrategy
  deriving DecidableEq

/-- Modelled from the spec: preparing a probe for execution chooses the
strategy by host capability — the anonymous-memory strategy when the kernel
supports the facility, otherwise the write-open-unlink fallback; kernel
non-support is non-fatal (a strategy is still produced, never an error). -/
def prepareProbe (anonSupported : Bool) : ExecStrategy :=
  if anonSupported then .anonymousMemory else .writeOpenUnlink

/-- Shared helper: a `findSome?` loop over a cons advances past a failing
head. -/
theorem findSome?_cons_none {α β : Type} (f : α → Option β) (a : α)
    (l : List α) (h : f a = none) :
    List.findSome? f (a :: l) = List.findSome? f l := by
  simp [List.findSome?_cons, h]

/-- Shared helper: a `findSome?` loop over a cons returns a succeeding
head's value. -/
theorem findSome?_cons_some {α β : Type} (f : α → Option β) (a : α)
    (l : List α) (v : β) (h : f a = some v) :
    List.findSome? f (a :: l) = some v := by
  simp [List.findSome?_cons, h]

/-- Shared helper: Rust `u32` parsing rejects an all-digit string whose
value exceeds `u32::MAX`. -/
theorem rustParseU32Chars_overflow (cs : List Char)
    (hd : cs.all isAsciiDigit = true) (hv : u32Max < digitsVal cs) :
    rustParseU32Chars cs = none := by
  cases cs with
  | nil => simp [digitsVal, u32Max] at hv
  | cons c cs' =>
    have hc : isAsciiDigit c = true := by
      rw [List.all_cons, Bool.and_eq_true] at hd
      exact hd.1
    have hplus : c ≠ '+' := by
      intro h
    -- '+' is not an ASCII digit
      rw [h] at hc
      exact absurd hc (by decide)
    rw [rustParseU32Chars]
    simp only [List.head?_cons, Option.some.injEq]
    rw [if_neg hplus]
    rw [if_neg (by simp)]
    rw [if_pos hd]
    rw [if_neg (by omega)]

end LibcDetector

namespace LibcDetector

/-- Claim C1: for every environment outcome, `libc_version()` returns the
`GLibC` family with `v` whenever `glibc_version()` returns `some v`; it
returns the `Musl` family with `v` exactly when `glibc_version()` returns
`none` and `musl_libc_version()` returns `some v`; and it returns `none`
exactly when both return `none` — glibc evidence strictly takes priority
over musl evidence. -/
theorem c1_glibc_priority (arch : TargetArch) (payload : String → List Nat)
    (genv : String → GlibcOutcome) (menv : String → MuslOutcome) :
    (∀ v, glibc_version arch payload genv = some v →
      libc_version arch payload genv menv = some ⟨.GLibC, v⟩) ∧
    (∀ v, libc_version arch payload genv menv = some ⟨.Musl, v⟩ ↔
      glibc_version arch payload genv = none ∧
        musl_libc_version menv = some v) ∧
    (libc_version arch payload genv menv = none ↔
      glibc_version arch payload genv = none ∧
        musl_libc_version menv = none) := by
  refine ⟨?_, ?_, ?_⟩
  · intro v hv
    simp [libc_version, hv]
  · intro v
    cases hg : glibc_version arch payload genv with
    | some w =>
      simp [libc_version, hg]
    | none =>
      cases hm : musl_libc_version menv with
      | some w => simp [libc_version, hg, hm]
      | none => simp [libc_version, hg, hm]
  · cases hg : glibc_version arch payload genv with
    | some w => simp [libc_version, hg]
    | none =>
      cases hm : musl_libc_version menv with
      | some w => simp [libc_version, hg, hm]
      | none => simp [libc_version, hg, hm]

/-- Witness for C1: a concrete environment where both families would
succeed; the glibc result wins. -/
theorem c1_glibc_priority_witness :
    libc_version .x86_64 (fun _ => []) (fun _ => .exited (some 0) (bytesOf "2.31"))
      (fun _ => .ran (some 1) [] (bytesOf "Version 1.2.3\n")) =
      some ⟨.GLibC, (2, 31)⟩ :=
  (c1_glibc_priority .x86_64 (fun _ => []) (fun _ => .exited (some 0) (bytesOf "2.31"))
    (fun _ => .ran (some 1) [] (bytesOf "Version 1.2.3\n"))).1 (2, 31) (by decide)

/-- Claim C2: the version parser trims surrounding whitespace, splits on
`.`, and parses the first two segments as non-negative integers, returning
the pair; it returns `none` when fewer than two segments exist or either
segment fails integer parsing, and trailing segments are ignored; with the
five concrete examples of the spec. -/
theorem c2_parse_contract (s : String) :
    (∀ m n rest, splitDot (rustTrim s.data) = m :: n :: rest →
      (∀ a, rustParseU32Chars m = some a → ∀ b, rustParseU32Chars n = some b →
        parse_major_minor_version s = some (a, b)) ∧
      (rustParseU32Chars m = none ∨ rustParseU32Chars n = none →
        parse_major_minor_version s = none)) ∧
    ((splitDot (rustTrim s.data)).length < 2 →
      parse_major_minor_version s = none) ∧
    parse_major_minor_version "2.31" = some (2, 31) ∧
    parse_major_minor_version "  5.10.3 " = some (5, 10) ∧
    parse_major_minor_version "7" = none ∧
    parse_major_minor_version "abc.def" = none ∧
    parse_major_minor_version "" = none := by
  refine ⟨?_, ?_, by decide, by decide, by decide, by decide, by decide⟩
  · intro m n rest h
    constructor
    · intro a ha b hb
      simp [parse_major_minor_version, parseMMChars, h, ha, hb]
    · rintro (hm | hn)
      · simp [parse_major_minor_version, parseMMChars, h, hm]
      · cases hM : rustParseU32Chars m with
        | none => simp [parse_major_minor_version, parseMMChars, h, hM]
        | some a => simp [parse_major_minor_version, parseMMChars, h, hM, hn]
  · intro hlen
    match hs : splitDot (rustTrim s.data) with
    | [] => simp [parse_major_minor_version, parseMMChars, hs]
    | [m] =>
      cases hM : rustParseU32Chars m with
      | none => simp [parse_major_minor_version, parseMMChars, hs, hM]
      | some a => simp [parse_major_minor_version, parseMMChars, hs, hM]
    | m :: n :: rest =>
      rw [hs] at hlen
      simp at hlen
      omega

/-- Witness for C2: the trailing-segment example, through the general
contract. -/
theorem c2_parse_contract_witness :
    parse_major_minor_version "  5.10.3 " = some (5, 10) :=
  (((c2_parse_contract "  5.10.3 ").1 "5".data "10".data ["3".data]
    (by decide)).1 5 (by decide) 10 (by decide))

/-- Claim C3: the musl version is computed only from standard error — find
the first stderr line with the `"Version "` tag, strip it, parse the rest —
and the result is identical regardless of the child's exit status (and of
stdout), shown also on the spec's concrete stderr text with zero and
non-zero exit statuses. -/
theorem c3_musl_stderr_only (code code' : Option Int)
    (sout sout' serr : List Nat) :
    muslAttempt (.ran code sout serr) = muslAttempt (.ran code' sout' serr) ∧
    muslAttempt (.ran code sout serr) =
      ((rustLines (utf8DecodeLossy serr)).findSome? stripVersionTag).bind
        parseMMChars ∧
    muslAttempt (.ran (some 0) sout
      (bytesOf "musl libc (x86_64)\nVersion 1.2.3\nUsage: ...")) = some (1, 2) ∧
    muslAttempt (.ran (some 1) sout
      (bytesOf "musl libc (x86_64)\nVersion 1.2.3\nUsage: ...")) = some (1, 2) :=
  ⟨rfl, rfl, by simp only [muslAttempt]; decide, by simp only [muslAttempt]; decide⟩

/-- Claim C4: a glibc probe attempt succeeds strictly on exit status zero:
any other captured code, a spawn "not found" error, another spawn error, or
termination without an exit code yields `none` and the loop advances to the
next candidate; on exit status zero the stdout bytes are decoded lossily
(invalid sequences replaced, never a decode failure) and parsed. -/
theorem c4_strict_zero_exit (code : Option Int) (out : List Nat) :
    (code ≠ some 0 → glibcAttempt (.exited code out) = none) ∧
    glibcAttempt (.exited none out) = none ∧
    glibcAttempt .spawnNotFound = none ∧
    glibcAttempt .spawnOther = none ∧
    glibcAttempt (.exited (some 0) out) = parseMMChars (utf8DecodeLossy out) ∧
    (∀ (env : String → GlibcOutcome) (d : String × List Nat)
      (ds : List (String × List Nat)), glibcAttempt (env d.1) = none →
      glibcRun env (d :: ds) = glibcRun env ds) ∧
    utf8DecodeLossy [0x32, 0xFF, 0x33] = ['2', uRepl, '3'] := by
  refine ⟨?_, rfl, rfl, rfl, ?_, ?_, by decide⟩
  · intro h
    simp [glibcAttempt, glibcAttemptT, h]
  · simp [glibcAttempt, glibcAttemptT]
  · intro env d ds h
    exact findSome?_cons_none _ d ds h

/-- Witness for C4: exit status 1 is a skip. -/
theorem c4_strict_zero_exit_witness :
    glibcAttempt (.exited (some 1) (bytesOf "2.31")) = none :=
  (c4_strict_zero_exit (some 1) (bytesOf "2.31")).1 (by decide)

/-- Claim C5: `musl_libc_version()` probes exactly the paths
`/lib/ld-musl-<arch>.so.1` for the tags x86_64, aarch64, i386, armhf,
powerpc64le, s390x in that order; a missing loader is a skip that advances
the loop without error, and the first tag yielding a parsed version is
returned. -/
theorem c5_musl_probe_order (env : String → MuslOutcome) :
    muslArches.map muslLoaderPath =
      ["/lib/ld-musl-x86_64.so.1", "/lib/ld-musl-aarch64.so.1",
       "/lib/ld-musl-i386.so.1", "/lib/ld-musl-armhf.so.1",
       "/lib/ld-musl-powerpc64le.so.1", "/lib/ld-musl-s390x.so.1"] ∧
    musl_libc_version env = muslRun env muslArches ∧
    (∀ p, env p = .absent → muslAttempt (env p) = none) ∧
    (∀ a as, muslAttempt (env (muslLoaderPath a)) = none →
      muslRun env (a :: as) = muslRun env as) ∧
    (∀ a as v, muslAttempt (env (muslLoaderPath a)) = some v →
      muslRun env (a :: as) = some v) := by
  refine ⟨by decide, rfl, ?_, ?_, ?_⟩
  · intro p h
    rw [h]
    rfl
  · intro a as h
    exact findSome?_cons_none _ a as h
  · intro a as v h
    exact findSome?_cons_some _ a as v h

/-- Witness for C5: a missing first loader advances to the second tag. -/
theorem c5_musl_probe_order_witness :
    muslRun (fun _ => .absent) ("x86_64" :: ["aarch64"]) =
      muslRun (fun _ => .absent) ["aarch64"] :=
  (c5_musl_probe_order (fun _ => .absent)).2.2.2.1 "x86_64" ["aarch64"] rfl

/-- Claim C6: probe preparation first attempts the anonymous-memory
strategy and falls back to the write-open-unlink strategy exactly when the
anonymous-memory facility is unsupported (non-support is non-fatal: a
strategy is always produced). -/
theorem c6_strategy_order :
    prepareProbe true = .anonymousMemory ∧
    (∀ b, prepareProbe b = .writeOpenUnlink ↔ b = false) := by
  refine ⟨rfl, ?_⟩
  intro b
  cases b <;> simp [prepareProbe]

/-- Witness for C6: the fallback is taken exactly on an unsupported
kernel. -/
theorem c6_strategy_order_witness :
    prepareProbe false = .writeOpenUnlink :=
  (c6_strategy_order.2 false).mpr rfl

/-- Claim C7: in every glibc probe attempt of the write-open-unlink
strategy, the writable handle is closed immediately after the read-only
duplicate is obtained; execution only ever targets the read-only descriptor
and happens after the writable handle is closed; and every descriptor
opened during the attempt is closed before the attempt returns, on success
and on every failure path alike. -/
theorem c7_resource_discipline (o : GlibcOutcome) :
    roThenCloseW (glibcAttemptT o).1 = true ∧
    execAfterCloseW false (glibcAttemptT o).1 = true ∧
    releasesAll (glibcAttemptT o).1 = true := by
  cases o <;> exact ⟨rfl, rfl, rfl⟩

/-- Claim C8: the detector registry is a pure lookup on the compiled
architecture with significant order: x86 builds list x86_64 then i686, ARM
builds list aarch64 then armv7l, powerpc64 and s390x list their single
entry, and unsupported architectures give the empty sequence, not an
error. -/
theorem c8_registry_order (payload : String → List Nat) :
    glibc_detectors payload .x86_64 =
      [("x86_64", payload "x86_64"), ("i686", payload "i686")] ∧
    glibc_detectors payload .x86 =
      [("x86_64", payload "x86_64"), ("i686", payload "i686")] ∧
    glibc_detectors payload .aarch64 =
      [("aarch64", payload "aarch64"), ("armv7l", payload "armv7l")] ∧
    glibc_detectors payload .arm =
      [("aarch64", payload "aarch64"), ("armv7l", payload "armv7l")] ∧
    glibc_detectors payload .powerpc64 = [("ppc64le", payload "ppc64le")] ∧
    glibc_detectors payload .s390x = [("s390x", payload "s390x")] ∧
    glibc_detectors payload .other = [] := by
  refine ⟨?_, ?_, ?_, ?_, ?_, ?_, ?_⟩ <;> rfl

/-- Claim C9: no failure of an individual attempt reaches the caller as an
error: the entry points are total functions into an option type, and when
every glibc candidate and every musl candidate fails, `libc_version()`
returns `none` (absence, never a thrown failure). -/
theorem c9_absence_on_exhaustion (arch : TargetArch)
    (payload : String → List Nat) (genv : String → GlibcOutcome)
    (menv : String → MuslOutcome) :
    ((∀ tag, glibcAttempt (genv tag) = none) →
      (∀ a, muslAttempt (menv (muslLoaderPath a)) = none) →
      libc_version arch payload genv menv = none) ∧
    (libc_version arch payload genv menv = none ∨
      ∃ v, libc_version arch payload genv menv = some v) := by
  constructor
  · intro hg hm
    have h1 : glibc_version arch payload genv = none := by
      rw [glibc_version, glibcRun, List.findSome?_eq_none_iff]
      intro d _
      exact hg d.1
    have h2 : musl_libc_version menv = none := by
      rw [musl_libc_version, muslRun, List.findSome?_eq_none_iff]
      intro a _
      exact hm a
    simp [libc_version, h1, h2]
  · cases h : libc_version arch payload genv menv with
    | none => exact Or.inl rfl
    | some v => exact Or.inr ⟨v, rfl⟩

/-- Witness for C9: every temp-file creation fails and no musl loader
exists; the result is absence. -/
theorem c9_absence_on_exhaustion_witness :
    libc_version .x86_64 (fun _ => []) (fun _ => .noTemp) (fun _ => .absent) =
      none :=
  (c9_absence_on_exhaustion .x86_64 (fun _ => []) (fun _ => .noTemp)
    (fun _ => .absent)).1 (fun _ => rfl) (fun _ => rfl)

/-- Claim C10: each segment is parsed as a 32-bit unsigned integer: any
input whose first or second dot-separated segment is a syntactically valid
non-negative integer exceeding 4294967295 parses to `none`. -/
theorem c10_u32_overflow (s : String) (m n : List Char)
    (rest : List (List Char)) (h : splitDot (rustTrim s.data) = m :: n :: rest)
    (hover : (m.all isAsciiDigit = true ∧ u32Max < digitsVal m) ∨
      (n.all isAsciiDigit = true ∧ u32Max < digitsVal n)) :
    parse_major_minor_version s = none := by
  rcases hover with ⟨hd, hv⟩ | ⟨hd, hv⟩
  · simp [parse_major_minor_version, parseMMChars, h,
      rustParseU32Chars_overflow m hd hv]
  · cases hM : rustParseU32Chars m with
    | none => simp [parse_major_minor_version, parseMMChars, h, hM]
    | some a =>
      simp [parse_major_minor_version, parseMMChars, h, hM,
        rustParseU32Chars_overflow n hd hv]

/-- Witness for C10: `u32::MAX + 1` as a major segment is rejected. -/
theorem c10_u32_overflow_witness :
    parse_major_minor_version "4294967296.0" = none :=
  c10_u32_overflow "4294967296.0" "4294967296".data "0".data []
    (by decide) (Or.inl ⟨by decide, by decide⟩)

end LibcDetector
